import Mathlib

/-!
Verification of the click-particle effect scripts
(src/js/click-particles.js, the refined variant, and src/unnamed/part_000,
the base variant) against their specification.

Shallow embedding conventions:
* JS numbers are modelled as rationals (ℚ); all arithmetic in the scripts is
  plain addition/subtraction/multiplication on values far from any
  floating-point edge case.
* `Math.random()` draws are passed in explicitly as parameters (fields of
  `RandDraws`), each standing for one sample in `[0, 1)`.
* The DOM target of an event is a node together with its ancestor chain
  (`DomNode`); `closest` walks that chain exactly as `Element.closest` does
  for the tag and class selectors the scripts use.
* Timers (`setTimeout` / `clearTimeout`) are modelled by an explicit pending
  slot holding the scheduled fire time; event streams are lists of
  timestamps processed in order, with a pending timer firing before any
  event whose timestamp is not earlier.
-/

/-- Constant `config.particleCount`: particles per click batch. -/
def particleCount : Nat := 30

/-- Constant `config.particleSpeed`. -/
def particleSpeed : ℚ := 5

/-- Constant `config.particleSize`. -/
def particleSize : ℚ := 3

/-- Constant `config.gravity`: per-frame increment to vertical velocity. -/
def gravity : ℚ := 0.3

/-- Constant `config.throttleDelay` (ms): the click/touch rate-limit window. -/
def throttleDelay : Nat := 100

/-- Constant `config.colors`: the fixed 12-colour palette. -/
def colors : List String :=
  ["#ff5e57", "#f3a683", "#778beb", "#f8a5c2",
   "#4ecdc4", "#45b7d1", "#f9ca24", "#6c5ce7",
   "#a29bfe", "#fd79a8", "#fdcb6e", "#e17055"]

/-- The wait passed to `debounce(resizeCanvas, 250)`. -/
def resizeDebounceDelay : Nat := 250

/-- A particle: mutable fields of the `Particle` class. -/
structure Particle where
  x : ℚ
  y : ℚ
  vx : ℚ
  vy : ℚ
  color : String
  size : ℚ
  life : ℚ
  decay : ℚ
deriving Repr, DecidableEq

/-- One `Math.random()` draw per randomised field of the constructor.
`rvx`, `rvy`, `rsize`, `rdecay` are samples in `[0, 1)`; `rcolor` is the
already-floored index `Math.floor(Math.random() * colors.length)`. -/
structure RandDraws where
  rvx : ℚ
  rvy : ℚ
  rcolor : Nat
  rsize : ℚ
  rdecay : ℚ
deriving Repr, DecidableEq

/-- The `Particle` constructor: `new Particle(x, y)` with the random draws
made explicit. -/
def Particle.init (x y : ℚ) (r : RandDraws) : Particle :=
  { x := x
    y := y
    vx := (r.rvx - 0.5) * particleSpeed * 2
    vy := (r.rvy - 0.5) * particleSpeed * 2
    color := colors.getD r.rcolor ""
    size := r.rsize * particleSize + 1
    life := 1
    decay := r.rdecay * 0.02 + 0.01 }

/-- Method `Particle.prototype.update`: kinematics step and liveness report.
Returns the updated particle and the boolean `this.life > 0`. -/
def Particle.update (p : Particle) : Particle × Bool :=
  let p' : Particle :=
    { p with
      x := p.x + p.vx
      y := p.y + p.vy
      vy := p.vy + gravity
      life := p.life - p.decay }
  (p', decide (0 < p'.life))

/-- C2: each `update` call decreases `life` by exactly the particle's own
`decay`; when the decay is positive (as it is for every constructed
particle) the decrease is strict; and `update` returns `false` exactly when
the resulting life is `≤ 0`. -/
theorem update_life_strict_decrease (p : Particle) (h : 0 < p.decay) :
    (p.update).1.life = p.life - p.decay ∧
    (p.update).1.life < p.life ∧
    ((p.update).2 = false ↔ (p.update).1.life ≤ 0) := by
  refine ⟨rfl, ?_, ?_⟩
  · simpa [Particle.update] using sub_lt_self p.life h
  · simp [Particle.update, not_lt]

/-- Witness for C2 at a concrete particle with `decay = 1/100`. -/
theorem update_life_strict_decrease_witness :
    (((⟨0, 0, 1, 1, "c", 2, 1, 1/100⟩ : Particle).update).1.life
        = (⟨0, 0, 1, 1, "c", 2, 1, 1/100⟩ : Particle).life - 1/100) ∧
    (((⟨0, 0, 1, 1, "c", 2, 1, 1/100⟩ : Particle).update).1.life
        < (⟨0, 0, 1, 1, "c", 2, 1, 1/100⟩ : Particle).life) ∧
    ((((⟨0, 0, 1, 1, "c", 2, 1, 1/100⟩ : Particle).update).2 = false) ↔
        ((⟨0, 0, 1, 1, "c", 2, 1, 1/100⟩ : Particle).update).1.life ≤ 0) :=
  update_life_strict_decrease ⟨0, 0, 1, 1, "c", 2, 1, 1/100⟩ (by norm_num)

/-- C8: `update` adds `(vx, vy)` to `(x, y)`, adds the gravity constant 0.3
to `vy`, and leaves `vx`, `color`, `size` and `decay` unchanged. -/
theorem update_frame_effect (p : Particle) :
    (p.update).1.x = p.x + p.vx ∧
    (p.update).1.y = p.y + p.vy ∧
    (p.update).1.vy = p.vy + 0.3 ∧
    (p.update).1.vx = p.vx ∧
    (p.update).1.color = p.color ∧
    (p.update).1.size = p.size ∧
    (p.update).1.decay = p.decay := by
  refine ⟨rfl, rfl, ?_, rfl, rfl, rfl, rfl⟩
  show p.vy + gravity = p.vy + 0.3
  norm_num [gravity]

/-- The module-level mutable state of the refined variant relevant to the
frame loop: the active particle list `particles` and whether a frame
callback is currently scheduled (`animationId` truthy). -/
structure EngineState where
  particles : List Particle
  animationId : Bool
deriving Repr, DecidableEq

/-- The body of `animate`'s per-particle loop in the refined variant:
update each particle in order, pushing the updated particle onto
`aliveParticles` exactly when its `update()` returned `true`. -/
def updateLoop : List Particle → List Particle
  | [] => []
  | p :: ps =>
    let r := p.update
    if r.2 then r.1 :: updateLoop ps else updateLoop ps

/-- One tick of `animate` in the refined variant: an empty active set
clears `animationId` and returns at once; otherwise the particles are
updated and filtered, and a further frame is requested iff some survive. -/
def animate (s : EngineState) : EngineState :=
  if s.particles.isEmpty then { s with animationId := false }
  else
    let alive := updateLoop s.particles
    { particles := alive, animationId := !alive.isEmpty }

theorem updateLoop_eq_filter_map (ps : List Particle) :
    updateLoop ps =
      (ps.filter (fun p => (p.update).2)).map (fun p => (p.update).1) := by
  induction ps with
  | nil => rfl
  | cons p ps ih =>
    simp only [updateLoop, List.filter_cons]
    by_cases h : (p.update).2 = true
    · simp [h, ih]
    · simp [h, ih]

/-- C1: after any `animate` tick the active set is exactly the particles
from before the tick whose `update` reported alive (their updated versions,
in the original insertion order), and another frame callback is scheduled
iff the post-tick active set is non-empty. -/
theorem animate_tick_invariant (s : EngineState) :
    (animate s).particles =
      ((s.particles.filter (fun p => (p.update).2)).map (fun p => (p.update).1)) ∧
    ((animate s).animationId = true ↔ (animate s).particles ≠ []) := by
  unfold animate
  by_cases h : s.particles.isEmpty
  · rw [if_pos h]
    rw [List.isEmpty_iff] at h
    simp [h]
  · rw [if_neg h]
    refine ⟨updateLoop_eq_filter_map s.particles, ?_⟩
    simp [List.isEmpty_iff]

/-- A DOM element as seen by the exclusion checks: its (uppercase) tag
name, its class list, and its parent chain. `root` is an element with no
parent (e.g. the document element). -/
inductive DomNode where
  | root (tag : String) (classes : List String)
  | child (tag : String) (classes : List String) (parent : DomNode)
deriving Repr, DecidableEq

/-- Accessor for `Element.tagName` (uppercase, as the DOM reports it for HTML). -/
def DomNode.tagName : DomNode → String
  | .root t _ => t
  | .child t _ _ => t

/-- Accessor for `Element.classList` as a plain list of class names. -/
def DomNode.classes : DomNode → List String
  | .root _ c => c
  | .child _ c _ => c

/-- The element itself followed by its ancestors, nearest first. -/
def DomNode.chain : DomNode → List DomNode
  | .root t c => [.root t c]
  | .child t c p => .child t c p :: p.chain

/-- The CSS selectors the scripts pass to `closest`: a bare tag name
(lowercase, e.g. `pre`) or a class selector (e.g. `.copy-btn`). -/
inductive Selector where
  | tag (name : String)
  | cls (name : String)
deriving Repr, DecidableEq

/-- ASCII uppercasing, used to compare a lowercase CSS tag selector with
the uppercase `tagName` the DOM reports (all the scripts' selectors are
ASCII). -/
def upperAscii (s : String) : String := String.mk (s.data.map Char.toUpper)

/-- Whether a single element matches a selector: a tag selector matches
case-insensitively (the DOM stores HTML tag names uppercase), a class
selector matches when the class list contains the name. -/
def DomNode.matchesSel (e : DomNode) : Selector → Bool
  | .tag n => e.tagName == upperAscii n
  | .cls n => e.classes.contains n

/-- Method `Element.closest(sel)`: the nearest self-or-ancestor matching `sel`. -/
def DomNode.closest : DomNode → Selector → Option DomNode
  | .root t c, s =>
      if (DomNode.root t c).matchesSel s then some (.root t c) else none
  | .child t c p, s =>
      if (DomNode.child t c p).matchesSel s then some (.child t c p)
      else p.closest s

theorem closest_isSome_iff (t : DomNode) (s : Selector) :
    (t.closest s).isSome = true ↔ ∃ a ∈ t.chain, a.matchesSel s = true := by
  induction t with
  | root tag cls =>
    by_cases h : (DomNode.root tag cls).matchesSel s = true
    · simp [DomNode.closest, DomNode.chain, h]
    · simp [DomNode.closest, DomNode.chain, h]
  | child tag cls p ih =>
    by_cases h : (DomNode.child tag cls p).matchesSel s = true
    · simp [DomNode.closest, DomNode.chain, h]
    · simp [DomNode.closest, DomNode.chain, h, ih]

/-- The `excludeSelectors` tag-name list of `shouldCreateParticles`. -/
def excludeTagNames : List String :=
  ["CODE", "PRE", "BUTTON", "A", "INPUT", "TEXTAREA", "SELECT"]

/-- The `excludeContainers` selector list of `shouldCreateParticles`. -/
def excludeContainers : List Selector :=
  [.tag "pre", .tag "code", .tag "button", .cls "copy-btn", .tag "a"]

/-- Function `shouldCreateParticles(target)` of the refined variant: a missing
target is rejected; then the immediate tag name is checked against
`excludeTagNames`; then each `excludeContainers` selector is checked with
`closest` on the ancestor chain. -/
def shouldCreateParticles : Option DomNode → Bool
  | none => false
  | some t =>
    if excludeTagNames.contains t.tagName then false
    else if excludeContainers.any (fun s => (t.closest s).isSome) then false
    else true

/-- Function `createParticles(x, y)`: push `particleCount` new particles, in order,
drawing fresh randomness for each. -/
def createParticles (x y : ℚ) (rng : Nat → RandDraws)
    (ps : List Particle) : List Particle :=
  ps ++ (List.range particleCount).map (fun i => Particle.init x y (rng i))

/-- Function `handleParticleCreation(x, y, target)`: spawn a batch unless the
exclusion check rejects, and ensure the frame loop is scheduled. -/
def handleParticleCreation (x y : ℚ) (target : Option DomNode)
    (rng : Nat → RandDraws) (s : EngineState) : EngineState :=
  if shouldCreateParticles target then
    { particles := createParticles x y rng s.particles, animationId := true }
  else s

theorem shouldCreate_false_of_tag (t : DomNode)
    (h : t.tagName ∈ excludeTagNames) :
    shouldCreateParticles (some t) = false := by
  have hc : excludeTagNames.contains t.tagName = true := by simpa using h
  show (if excludeTagNames.contains t.tagName = true then false
    else if (excludeContainers.any fun s => (t.closest s).isSome) = true
      then false else true) = false
  rw [hc]
  rfl

theorem shouldCreate_false_of_closest (t : DomNode) (sel : Selector)
    (hmem : sel ∈ excludeContainers)
    (h : (t.closest sel).isSome = true) :
    shouldCreateParticles (some t) = false := by
  have ha : excludeContainers.any (fun s => (t.closest s).isSome) = true := by
    rw [List.any_eq_true]
    exact ⟨sel, hmem, h⟩
  show (if excludeTagNames.contains t.tagName = true then false
    else if (excludeContainers.any fun s => (t.closest s).isSome) = true
      then false else true) = false
  rw [ha]
  cases hc : excludeTagNames.contains t.tagName <;> rfl

theorem shouldCreate_false_of_chain (t a : DomNode) (ha : a ∈ t.chain)
    (sel : Selector) (hmem : sel ∈ excludeContainers)
    (hm : a.matchesSel sel = true) :
    shouldCreateParticles (some t) = false :=
  shouldCreate_false_of_closest t sel hmem
    ((closest_isSome_iff t sel).mpr ⟨a, ha, hm⟩)

/-- C3: when the exclusion check accepts the target, `handleParticleCreation`
appends exactly `particleCount` (30) new particles, all constructed at the
event origin `(x, y)`, leaving the existing particles in place; when it
rejects, the active set is unchanged. -/
theorem spawn_batch_exact (x y : ℚ) (target : Option DomNode)
    (rng : Nat → RandDraws) (s : EngineState) :
    (shouldCreateParticles target = true →
      (handleParticleCreation x y target rng s).particles.length
          = s.particles.length + particleCount ∧
      (handleParticleCreation x y target rng s).particles.take
          s.particles.length = s.particles ∧
      ∀ p ∈ (handleParticleCreation x y target rng s).particles.drop
          s.particles.length, p.x = x ∧ p.y = y) ∧
    (shouldCreateParticles target = false →
      (handleParticleCreation x y target rng s).particles = s.particles) := by
  constructor
  · intro h
    simp only [handleParticleCreation, if_pos h, createParticles]
    refine ⟨by simp, by simp, ?_⟩
    intro p hp
    rw [List.drop_left] at hp
    simp only [List.mem_map, List.mem_range] at hp
    obtain ⟨i, _, rfl⟩ := hp
    exact ⟨rfl, rfl⟩
  · intro h
    simp [handleParticleCreation, h]

/-- Witness for C3: a spawn on a plain `DIV` target adds exactly 30
particles; a spawn with an absent (rejected) target adds none. -/
theorem spawn_batch_exact_witness :
    (handleParticleCreation 3 4 (some (DomNode.root "DIV" []))
        (fun _ => ⟨0, 0, 0, 0, 0⟩) ⟨[], false⟩).particles.length
      = ([] : List Particle).length + particleCount ∧
    (handleParticleCreation 3 4 none (fun _ => ⟨0, 0, 0, 0, 0⟩)
        ⟨[], false⟩).particles = ([] : List Particle) :=
  ⟨((spawn_batch_exact 3 4 (some (DomNode.root "DIV" []))
      (fun _ => ⟨0, 0, 0, 0, 0⟩) ⟨[], false⟩).1 (by decide)).1,
   (spawn_batch_exact 3 4 none (fun _ => ⟨0, 0, 0, 0, 0⟩) ⟨[], false⟩).2 rfl⟩

/-- C5 counterexample: the code treats an absent interaction target as
exclusionary, not as non-exclusionary — `shouldCreateParticles` returns
`false` for a missing target and the spawn adds zero particles, where the
claim requires a full batch to be added. -/
theorem absent_target_spawn_cex :
    shouldCreateParticles none = false ∧
    (handleParticleCreation 1 2 none (fun _ => ⟨0, 0, 0, 0, 0⟩)
        ⟨[], false⟩).particles.length = 0 :=
  ⟨rfl, rfl⟩

/-- C5 amended: an absent/undefined interaction target is treated as
exclusionary — the spawn is rejected and the engine state is unchanged. -/
theorem absent_target_treated_exclusionary (x y : ℚ) (rng : Nat → RandDraws)
    (s : EngineState) :
    shouldCreateParticles none = false ∧
    handleParticleCreation x y none rng s = s :=
  ⟨rfl, rfl⟩

/-- C4 counterexample: the exclusion set's ancestor walk does not cover the
form controls. A click on an `OPTION` element whose parent is a `SELECT`
(an ancestor in the claim's exclusion set) passes the check and a full
batch of particles IS added, where the claim requires none. -/
theorem exclusion_ancestor_cex :
    ((DomNode.child "OPTION" [] (.root "SELECT" [])).chain.map DomNode.tagName
        = ["OPTION", "SELECT"]) ∧
    shouldCreateParticles
        (some (DomNode.child "OPTION" [] (.root "SELECT" []))) = true ∧
    (handleParticleCreation 0 0
        (some (DomNode.child "OPTION" [] (.root "SELECT" [])))
        (fun _ => ⟨0, 0, 0, 0, 0⟩) ⟨[], false⟩).particles.length
      = particleCount :=
  ⟨rfl, by decide, rfl⟩

/-- C4 amended: a spawn is rejected whenever the immediate target's tag is
in {CODE, PRE, BUTTON, A, INPUT, TEXTAREA, SELECT}, or the target or one of
its ancestors has tag PRE, CODE, BUTTON or A or carries the `copy-btn`
class; the form controls INPUT/TEXTAREA/SELECT are excluded only as the
immediate target, not through the ancestor walk. -/
theorem exclusion_check_amended (x y : ℚ) (rng : Nat → RandDraws)
    (s : EngineState) (t : DomNode)
    (h : t.tagName ∈ excludeTagNames ∨
         ∃ a ∈ t.chain, a.tagName ∈ ["PRE", "CODE", "BUTTON", "A"] ∨
           "copy-btn" ∈ a.classes) :
    shouldCreateParticles (some t) = false ∧
    handleParticleCreation x y (some t) rng s = s := by
  have hf : shouldCreateParticles (some t) = false := by
    rcases h with h | ⟨a, ha, hmatch⟩
    · exact shouldCreate_false_of_tag t h
    · rcases hmatch with htag | hcls
      · simp only [List.mem_cons, List.not_mem_nil, or_false] at htag
        rcases htag with h1 | h1 | h1 | h1
        · refine shouldCreate_false_of_chain t a ha (.tag "pre") (by decide) ?_
          show (a.tagName == upperAscii "pre") = true
          rw [h1]; rfl
        · refine shouldCreate_false_of_chain t a ha (.tag "code") (by decide) ?_
          show (a.tagName == upperAscii "code") = true
          rw [h1]; rfl
        · refine shouldCreate_false_of_chain t a ha (.tag "button") (by decide) ?_
          show (a.tagName == upperAscii "button") = true
          rw [h1]; rfl
        · refine shouldCreate_false_of_chain t a ha (.tag "a") (by decide) ?_
          show (a.tagName == upperAscii "a") = true
          rw [h1]; rfl
      · refine shouldCreate_false_of_chain t a ha (.cls "copy-btn") (by decide) ?_
        show a.classes.contains "copy-btn" = true
        simpa using hcls
  refine ⟨hf, ?_⟩
  unfold handleParticleCreation
  rw [hf]
  rfl

/-- Witness for C4 (amended) at a concrete `BUTTON` target. -/
theorem exclusion_check_amended_witness :
    shouldCreateParticles (some (DomNode.root "BUTTON" [])) = false ∧
    handleParticleCreation 5 6 (some (DomNode.root "BUTTON" []))
        (fun _ => ⟨0, 0, 0, 0, 0⟩) ⟨[], true⟩ = ⟨[], true⟩ :=
  exclusion_check_amended 5 6 (fun _ => ⟨0, 0, 0, 0, 0⟩) ⟨[], true⟩
    (DomNode.root "BUTTON" []) (Or.inl (by decide))

/-- The exclusion check inlined in the base variant's click handler
(part_000): immediate tag CODE or PRE, or a self-or-ancestor match of
`pre`, `button` or `.copy-btn`. -/
def baseVariantExcluded (t : DomNode) : Bool :=
  (t.tagName == "CODE") || (t.tagName == "PRE") ||
  (t.closest (.tag "pre")).isSome ||
  (t.closest (.tag "button")).isSome ||
  (t.closest (.cls "copy-btn")).isSome

/-- C9: every non-null target the base variant's exclusion check rejects is
also rejected by the refined variant's `shouldCreateParticles`: the refined
exclusion behaviour is a superset of the base one. -/
theorem base_excluded_implies_refined (t : DomNode)
    (h : baseVariantExcluded t = true) :
    shouldCreateParticles (some t) = false := by
  simp only [baseVariantExcluded, Bool.or_eq_true, beq_iff_eq] at h
  rcases h with ((((h | h) | h) | h) | h)
  · exact shouldCreate_false_of_tag t (by rw [h]; decide)
  · exact shouldCreate_false_of_tag t (by rw [h]; decide)
  · exact shouldCreate_false_of_closest t (.tag "pre") (by decide) h
  · exact shouldCreate_false_of_closest t (.tag "button") (by decide) h
  · exact shouldCreate_false_of_closest t (.cls "copy-btn") (by decide) h

/-- Witness for C9 at a concrete `CODE` target. -/
theorem base_excluded_implies_refined_witness :
    shouldCreateParticles (some (DomNode.root "CODE" [])) = false :=
  base_excluded_implies_refined (DomNode.root "CODE" []) (by decide)

/-- Observable behaviour of `throttle(func, wait)` on a stream of call
timestamps (in ms, processed in order): the state is the fire time of the
pending `setTimeout`, if any. A call with no pending timer schedules `func`
to run `wait` later; calls while a timer is pending are dropped; a pending
timer fires before any call whose timestamp is not earlier than the fire
time. Returns the times at which `func` actually runs. -/
def throttleRun (wait : Nat) : Option Nat → List Nat → List Nat
  | none, [] => []
  | some ft, [] => [ft]
  | none, t :: ts => throttleRun wait (some (t + wait)) ts
  | some ft, t :: ts =>
    if ft ≤ t then ft :: throttleRun wait (some (t + wait)) ts
    else throttleRun wait (some ft) ts

theorem throttleRun_pending_drop (wait ft : Nat) (rest : List Nat)
    (h : ∀ t ∈ rest, t < ft) :
    throttleRun wait (some ft) rest = [ft] := by
  induction rest with
  | nil => rfl
  | cons t ts ih =>
    have hn : ¬ ft ≤ t := not_le.mpr (h t (List.mem_cons_self t ts))
    simp only [throttleRun, if_neg hn]
    exact ih (fun u hu => h u (List.mem_cons_of_mem t hu))

/-- C6: a burst of clicks starting at `t0` whose later events all fall
inside the rate-limit window `[t0, t0 + 100)` invokes the wrapped handler
exactly once, deferred to `t0 + 100`; in particular at most one batch is
spawned for the burst. -/
theorem throttle_burst_single (t0 : Nat) (rest : List Nat)
    (h : ∀ t ∈ rest, t < t0 + throttleDelay) :
    throttleRun throttleDelay none (t0 :: rest) = [t0 + throttleDelay] ∧
    (throttleRun throttleDelay none (t0 :: rest)).length ≤ 1 := by
  have he : throttleRun throttleDelay none (t0 :: rest)
      = throttleRun throttleDelay (some (t0 + throttleDelay)) rest := rfl
  rw [he, throttleRun_pending_drop throttleDelay (t0 + throttleDelay) rest h]
  exact ⟨rfl, by norm_num⟩

/-- Witness for C6: three clicks at 0, 10 and 50 ms fire the handler once,
at 100 ms. -/
theorem throttle_burst_single_witness :
    throttleRun throttleDelay none (0 :: [10, 50]) = [0 + throttleDelay] ∧
    (throttleRun throttleDelay none (0 :: [10, 50])).length ≤ 1 :=
  throttle_burst_single 0 [10, 50] (by decide)

/-- Observable behaviour of `debounce(func, wait)` on a stream of
timestamped calls carrying their arguments: every call cancels the pending
timer, if any, and schedules `func` with its own arguments `wait` later; a
pending timer fires before any call whose timestamp is not earlier than the
fire time. Returns the (time, argument) pairs at which `func` runs. -/
def debounceRun {α : Type} (wait : Nat) :
    Option (Nat × α) → List (Nat × α) → List (Nat × α)
  | none, [] => []
  | some (ft, fa), [] => [(ft, fa)]
  | none, (t, a) :: es => debounceRun wait (some (t + wait, a)) es
  | some (ft, fa), (t, a) :: es =>
    if ft ≤ t then (ft, fa) :: debounceRun wait (some (t + wait, a)) es
    else debounceRun wait (some (t + wait, a)) es

/-- The render surface's dimensions, as set by `resizeCanvas`. -/
structure Canvas where
  width : Nat
  height : Nat
deriving Repr, DecidableEq

/-- Function `resizeCanvas` with the viewport size made explicit: overwrites the
canvas dimensions with `window.innerWidth` / `window.innerHeight`. -/
def resizeCanvas (viewport : Nat × Nat) (_c : Canvas) : Canvas :=
  { width := viewport.1, height := viewport.2 }

/-- A burst relative to a previous event at `prev`: each event arrives
strictly before the timer scheduled by its predecessor (`wait` later)
would fire. -/
def burstAfter {α : Type} (wait : Nat) : Nat → List (Nat × α) → Bool
  | _, [] => true
  | prev, (t, _) :: es => decide (t < prev + wait) && burstAfter wait t es

/-- The final event of `e :: rest`. -/
def lastEvent {α : Type} : (Nat × α) → List (Nat × α) → (Nat × α)
  | e, [] => e
  | _, e :: es => lastEvent e es

theorem debounceRun_burst {α : Type} (wait prev : Nat) (a : α)
    (rest : List (Nat × α)) (h : burstAfter wait prev rest = true) :
    debounceRun wait (some (prev + wait, a)) rest
      = [((lastEvent (prev, a) rest).1 + wait, (lastEvent (prev, a) rest).2)] := by
  induction rest generalizing prev a with
  | nil => rfl
  | cons e es ih =>
    obtain ⟨t, b⟩ := e
    simp only [burstAfter, Bool.and_eq_true, decide_eq_true_eq] at h
    obtain ⟨ht, hrest⟩ := h
    have hn : ¬ (prev + wait ≤ t) := not_le.mpr ht
    simp only [debounceRun, lastEvent, if_neg hn]
    exact ih t b hrest

/-- C7: for a burst of resize events (each arriving before the previous
pending resize would fire), the debounced `resizeCanvas` executes exactly
once, `resizeDebounceDelay` after the final event, and the canvas ends up
with the final event's viewport dimensions regardless of its prior state. -/
theorem resize_debounce_once (t0 : Nat) (d0 : Nat × Nat)
    (rest : List (Nat × Nat × Nat)) (c0 : Canvas)
    (h : burstAfter resizeDebounceDelay t0 rest = true) :
    debounceRun resizeDebounceDelay none ((t0, d0) :: rest)
      = [((lastEvent (t0, d0) rest).1 + resizeDebounceDelay,
          (lastEvent (t0, d0) rest).2)] ∧
    (debounceRun resizeDebounceDelay none ((t0, d0) :: rest)).length = 1 ∧
    (debounceRun resizeDebounceDelay none ((t0, d0) :: rest)).foldl
        (fun c e => resizeCanvas e.2 c) c0
      = { width := (lastEvent (t0, d0) rest).2.1,
          height := (lastEvent (t0, d0) rest).2.2 } := by
  have he : debounceRun resizeDebounceDelay none ((t0, d0) :: rest)
      = debounceRun resizeDebounceDelay (some (t0 + resizeDebounceDelay, d0))
          rest := rfl
  rw [he, debounceRun_burst resizeDebounceDelay t0 d0 rest h]
  exact ⟨rfl, rfl, rfl⟩

/-- Witness for C7: resizes at 0 ms (800×600) and 100 ms (1024×768) update
the canvas once, at 350 ms, to 1024×768. -/
theorem resize_debounce_once_witness :
    debounceRun resizeDebounceDelay none ((0, (800, 600)) :: [(100, (1024, 768))])
      = [((lastEvent (0, (800, 600)) [(100, (1024, 768))]).1 + resizeDebounceDelay,
          (lastEvent (0, (800, 600)) [(100, (1024, 768))]).2)] ∧
    (debounceRun resizeDebounceDelay none
        ((0, (800, 600)) :: [(100, (1024, 768))])).length = 1 ∧
    (debounceRun resizeDebounceDelay none
        ((0, (800, 600)) :: [(100, (1024, 768))])).foldl
        (fun c e => resizeCanvas e.2 c) ⟨1, 1⟩
      = { width := (lastEvent (0, (800, 600)) [(100, (1024, 768))]).2.1,
          height := (lastEvent (0, (800, 600)) [(100, (1024, 768))]).2.2 } :=
  resize_debounce_once 0 (800, 600) [(100, (1024, 768))] ⟨1, 1⟩ (by decide)

theorem updateLoop_life_pos (ps : List Particle) (p : Particle)
    (hp : p ∈ updateLoop ps) : 0 < p.life := by
  rw [updateLoop_eq_filter_map] at hp
  simp only [List.mem_map, List.mem_filter] at hp
  obtain ⟨q, ⟨_, hq⟩, rfl⟩ := hp
  exact of_decide_eq_true hq

theorem updateLoop_bound (ps : List Particle) (c d : ℚ)
    (h : ∀ p ∈ ps, p.life ≤ c ∧ d ≤ p.decay) :
    ∀ p ∈ updateLoop ps, p.life ≤ c - d ∧ d ≤ p.decay := by
  intro p hp
  rw [updateLoop_eq_filter_map] at hp
  simp only [List.mem_map, List.mem_filter] at hp
  obtain ⟨q, ⟨hqmem, _⟩, rfl⟩ := hp
  obtain ⟨hl, hd⟩ := h q hqmem
  refine ⟨?_, hd⟩
  show q.life - q.decay ≤ c - d
  exact sub_le_sub hl hd

theorem animate_bound (s : EngineState) (c d : ℚ)
    (h : ∀ p ∈ s.particles, p.life ≤ c ∧ d ≤ p.decay) :
    ∀ p ∈ (animate s).particles, p.life ≤ c - d ∧ d ≤ p.decay := by
  intro p hp
  unfold animate at hp
  by_cases he : s.particles.isEmpty
  · rw [if_pos he] at hp
    rw [List.isEmpty_iff] at he
    simp [he] at hp
  · rw [if_neg he] at hp
    exact updateLoop_bound s.particles c d h p hp

theorem animate_life_pos (s : EngineState) (p : Particle)
    (hp : p ∈ (animate s).particles) : 0 < p.life := by
  unfold animate at hp
  by_cases he : s.particles.isEmpty
  · rw [if_pos he] at hp
    rw [List.isEmpty_iff] at he
    simp [he] at hp
  · rw [if_neg he] at hp
    exact updateLoop_life_pos s.particles p hp

theorem animate_iter_bound (k : Nat) (s : EngineState) (c d : ℚ)
    (h : ∀ p ∈ s.particles, p.life ≤ c ∧ d ≤ p.decay) :
    ∀ p ∈ (animate^[k] s).particles, p.life ≤ c - k * d ∧ d ≤ p.decay := by
  induction k generalizing s c with
  | zero => simpa using h
  | succ k ih =>
    rw [Function.iterate_succ_apply]
    intro p hp
    obtain ⟨hl, hd⟩ := ih (animate s) (c - d) (animate_bound s c d h) p hp
    refine ⟨?_, hd⟩
    calc p.life ≤ c - d - k * d := hl
    _ = c - (k + 1 : Nat) * d := by push_cast; ring

theorem animate_empty_after (s : EngineState)
    (h : ∀ p ∈ s.particles, p.life ≤ 1 ∧ 1/100 ≤ p.decay) :
    (animate^[100] s).particles = [] := by
  by_contra hne
  obtain ⟨p, hp⟩ := List.exists_mem_of_ne_nil _ hne
  obtain ⟨hl, _⟩ := animate_iter_bound 100 s 1 (1/100) h p hp
  have hp' := hp
  rw [show (100 : Nat) = 99 + 1 from rfl, Function.iterate_succ_apply'] at hp'
  have hpos : 0 < p.life := animate_life_pos _ p hp'
  norm_num at hl
  linarith

theorem animate_stops_of_empty (s : EngineState)
    (h : (animate s).particles = []) : (animate s).animationId = false := by
  unfold animate at h ⊢
  by_cases he : s.particles.isEmpty
  · rw [if_pos he]
  · rw [if_neg he] at h ⊢
    have h' : updateLoop s.particles = [] := h
    show (!(updateLoop s.particles).isEmpty) = false
    rw [h']
    rfl

/-- C10: every constructed particle's decay rate is at least 0.01, and from
any state whose particles all satisfy `life ≤ 1` and `decay ≥ 1/100` (as
all constructed particles do), 100 `animate` ticks empty the active set and
leave the loop idle (no frame callback scheduled). -/
theorem decay_lower_bound_loop_idles (x y : ℚ) (r : RandDraws)
    (hr : 0 ≤ r.rdecay) (s : EngineState)
    (hs : ∀ p ∈ s.particles, p.life ≤ 1 ∧ 1/100 ≤ p.decay) :
    1/100 ≤ (Particle.init x y r).decay ∧
    (animate^[100] s).particles = [] ∧
    (animate^[100] s).animationId = false := by
  refine ⟨?_, animate_empty_after s hs, ?_⟩
  · show (1 : ℚ)/100 ≤ r.rdecay * 0.02 + 0.01
    have h1 : (0 : ℚ) ≤ r.rdecay * 0.02 := mul_nonneg hr (by norm_num)
    have h2 : (1 : ℚ)/100 = 0.01 := by norm_num
    linarith
  · have hemp := animate_empty_after s hs
    rw [show (100 : Nat) = 99 + 1 from rfl, Function.iterate_succ_apply'] at hemp ⊢
    exact animate_stops_of_empty _ hemp

/-- Witness for C10: a single particle with full life and the minimal decay
rate is gone, and the loop idle, after 100 ticks. -/
theorem decay_lower_bound_loop_idles_witness :
    1/100 ≤ (Particle.init 0 0 ⟨0, 0, 0, 0, 0⟩).decay ∧
    (animate^[100]
        (⟨[⟨0, 0, 0, 0, "c", 1, 1, 1/100⟩], true⟩ : EngineState)).particles
      = [] ∧
    (animate^[100]
        (⟨[⟨0, 0, 0, 0, "c", 1, 1, 1/100⟩], true⟩ : EngineState)).animationId
      = false :=
  decay_lower_bound_loop_idles 0 0 ⟨0, 0, 0, 0, 0⟩ le_rfl
    ⟨[⟨0, 0, 0, 0, "c", 1, 1, 1/100⟩], true⟩
    (by
      intro p hp
      simp only [List.mem_singleton] at hp
      subst hp
      exact ⟨by norm_num, by norm_num⟩)
